import Mathlib

/-!
Shallow embedding of cuprate's consensus caches
(src/consensus/src/hardforks.rs and src/consensus/src/block/weight.rs):
the hard-fork state machine and the block-weight cache, together with
proofs checking the natural-language specification against them.

Machine integers (`u64`, `usize`) are modelled as `Nat`; wrapping
arithmetic is written explicitly with `% U64_MOD` exactly where the Rust
release build would wrap (debug builds panic there instead, which is
noted at each site).  Fallible operations return explicit result types;
Rust panics (`assert_eq!`, `panic!`, `expect`, `todo!`) are modelled by a
dedicated `fatal` outcome.
-/

/-- `2^64`, the modulus of Rust `u64` arithmetic. -/
def U64_MOD : Nat := 2 ^ 64

/-- Wrapping `u64` subtraction of one (`x - 1` in release Rust; a debug
build panics when `x = 0`). -/
def u64_sub_one (x : Nat) : Nat := (x + (U64_MOD - 1)) % U64_MOD

/-- The consensus error type (`ConsensusError` in the crate root, which is
not part of the sources under verification; modelled minimally: a
chain-store error with an abstract code, and the invalid-hard-fork-version
error from `HardFork::from_version`). -/
inductive ConsensusError : Type where
  | Database (code : Nat)
  | InvalidHardForkVersion
deriving DecidableEq

/-- Result of an operation that builds a value from chain-store fetches
(no pre-existing state to leave behind): success, a propagated error, or a
Rust panic (`fatal`). -/
inductive Fetched (α : Type) : Type where
  | ok (a : α)
  | err (e : ConsensusError)
  | fatal
deriving DecidableEq

/-- Result of a `&mut self` operation: on success the new state, on a
propagated error the state the method leaves behind (Rust's `?` returns
early but the mutations already applied to `self` persist), or a Rust
panic (`fatal`). -/
inductive MutResult (σ : Type) : Type where
  | ok (s : σ)
  | err (e : ConsensusError) (s : σ)
  | fatal
deriving DecidableEq

/- ## Hard forks (src/consensus/src/hardforks.rs) -/

/-- `Network` from cuprate_common. -/
inductive Network : Type where
  | Mainnet
  | Testnet
  | Stagenet
deriving DecidableEq

/-- An identifier for every hard-fork Monero has had (`enum HardFork`). -/
inductive HardFork : Type where
  | V1 | V2 | V3 | V4 | V5 | V6 | V7 | V8
  | V9 | V10 | V11 | V12 | V13 | V14 | V15 | V16
deriving DecidableEq

namespace HardFork

/-- The `repr(u8)` discriminant of the fork (`*self as u8`): V1 = 1, …,
V16 = 16.  The derived `PartialOrd`/`Ord` on the Rust enum orders by this
number. -/
def num : HardFork → Nat
  | .V1 => 1 | .V2 => 2 | .V3 => 3 | .V4 => 4
  | .V5 => 5 | .V6 => 6 | .V7 => 7 | .V8 => 8
  | .V9 => 9 | .V10 => 10 | .V11 => 11 | .V12 => 12
  | .V13 => 13 | .V14 => 14 | .V15 => 15 | .V16 => 16

/-- `HardFork::from_version`. -/
def from_version (version : Nat) : Except ConsensusError HardFork :=
  match version with
  | 1 => .ok .V1 | 2 => .ok .V2 | 3 => .ok .V3 | 4 => .ok .V4
  | 5 => .ok .V5 | 6 => .ok .V6 | 7 => .ok .V7 | 8 => .ok .V8
  | 9 => .ok .V9 | 10 => .ok .V10 | 11 => .ok .V11 | 12 => .ok .V12
  | 13 => .ok .V13 | 14 => .ok .V14 | 15 => .ok .V15 | 16 => .ok .V16
  | _ => .error .InvalidHardForkVersion

/-- `HardFork::next_fork`: the next hard-fork, or none at V16. -/
def next_fork (self : HardFork) : Option HardFork :=
  (from_version (self.num + 1)).toOption

/-- `HardFork::fork_threshold`: no Monero hard forks actually use voting,
so the threshold is 0 on every network (the network argument is ignored). -/
def fork_threshold (_self : HardFork) (_network : Network) : Nat := 0

/-- `HardFork::votes_needed`: `(threshold * window + 99) / 100`. -/
def votes_needed (self : HardFork) (network : Network) (window : Nat) : Nat :=
  (self.fork_threshold network * window + 99) / 100

/-- `HardFork::mainnet_fork_height`: the hard-coded mainnet activation
heights. -/
def mainnet_fork_height : HardFork → Nat
  | .V1 => 0
  | .V2 => 1009827
  | .V3 => 1141317
  | .V4 => 1220516
  | .V5 => 1288616
  | .V6 => 1400000
  | .V7 => 1546000
  | .V8 => 1685555
  | .V9 => 1686275
  | .V10 => 1788000
  | .V11 => 1788720
  | .V12 => 1978433
  | .V13 => 2210000
  | .V14 => 2210720
  | .V15 => 2688888
  | .V16 => 2689608

/-- `HardFork::fork_height`.  The stagenet and testnet tables are
`todo!()` in the source (an unconditional panic), modelled here as
`none`. -/
def fork_height (self : HardFork) (network : Network) : Option Nat :=
  match network with
  | .Mainnet => some self.mainnet_fork_height
  | .Stagenet => none
  | .Testnet => none

/-- `HardFork::in_range`: `start <= self < end` in the derived order. -/
def in_range (self start stop : HardFork) : Prop :=
  start.num ≤ self.num ∧ self.num < stop.num

instance (self start stop : HardFork) : Decidable (self.in_range start stop) :=
  inferInstanceAs (Decidable (start.num ≤ self.num ∧ self.num < stop.num))

end HardFork

/-- `BlockHFInfo`: the `(version, vote)` pair of a block header. -/
structure BlockHFInfo : Type where
  version : HardFork
  vote : HardFork
deriving DecidableEq

/-- `HFVotes`: the vote counters, one per hard-fork (`votes: [u64; 16]`,
modelled as a list whose length is 16 in every reachable state).  Counter
arithmetic is modelled on `Nat` (the `u64` counters cannot approach
`2^64` since they are bounded by the window size). -/
structure HFVotes : Type where
  votes : List Nat
deriving DecidableEq

namespace HFVotes

/-- `HFVotes::default()`: all 16 counters zero. -/
def default : HFVotes := ⟨List.replicate 16 0⟩

/-- `HFVotes::add_votes_for_hf`: `votes[hf as usize - 1] += votes`. -/
def add_votes_for_hf (self : HFVotes) (hf : HardFork) (n : Nat) : HFVotes :=
  ⟨self.votes.set (hf.num - 1) (self.votes.getD (hf.num - 1) 0 + n)⟩

/-- `HFVotes::add_vote_for_hf`. -/
def add_vote_for_hf (self : HFVotes) (hf : HardFork) : HFVotes :=
  self.add_votes_for_hf hf 1

/-- `HFVotes::remove_vote_for_hf`: `votes[hf as usize - 1] -= 1`.  The
counter must be positive (otherwise a debug build panics on `u64`
underflow; the spec calls this a programmer error); modelled with
truncating `Nat` subtraction. -/
def remove_vote_for_hf (self : HFVotes) (hf : HardFork) : HFVotes :=
  ⟨self.votes.set (hf.num - 1) (self.votes.getD (hf.num - 1) 0 - 1)⟩

/-- `HFVotes::votes_for_hf`: `votes[hf as usize - 1..].iter().sum()`. -/
def votes_for_hf (self : HFVotes) (hf : HardFork) : Nat :=
  (self.votes.drop (hf.num - 1)).sum

/-- `HFVotes::total_votes`: the sum of all counters. -/
def total_votes (self : HFVotes) : Nat :=
  self.votes.sum

end HFVotes

/- ## Block weights: pure calculations (src/consensus/src/block/weight.rs) -/

def PENALTY_FREE_ZONE_1 : Nat := 20000
def PENALTY_FREE_ZONE_2 : Nat := 60000
def PENALTY_FREE_ZONE_5 : Nat := 300000

def SHORT_TERM_WINDOW : Nat := 100
def LONG_TERM_WINDOW : Nat := 100000

/-- `penalty_free_zone`. -/
def penalty_free_zone (hf : HardFork) : Nat :=
  if hf = HardFork.V1 then PENALTY_FREE_ZONE_1
  else if hf.in_range HardFork.V2 HardFork.V5 then PENALTY_FREE_ZONE_2
  else PENALTY_FREE_ZONE_5

/-- `get_mid`: `(a / 2) + (b / 2) + ((a - 2 * (a / 2)) + (b - 2 * (b / 2))) / 2`,
the overflow-free integer midpoint from epee's `misc_language.h`. -/
def get_mid (a b : Nat) : Nat :=
  (a / 2) + (b / 2) + ((a - 2 * (a / 2)) + (b - 2 * (b / 2))) / 2

/-- `median` of a sorted slice.  Indexing (`array[i]`, which panics when
out of bounds — the caller must not pass an empty slice) is modelled with
`List.getD _ 0`. -/
def median (array : List Nat) : Nat :=
  let mid := array.length / 2
  if array.length = 1 then array.getD 0 0
  else if array.length % 2 = 0 then
    get_mid (array.getD (mid - 1) 0) (array.getD mid 0)
  else array.getD mid 0

/-- `calculate_effective_median_block_weight`. -/
def calculate_effective_median_block_weight
    (hf : HardFork) (sorted_short_term_window sorted_long_term_window : List Nat) : Nat :=
  if hf.in_range HardFork.V1 HardFork.V10 then
    median sorted_short_term_window
  else
    let long_term_median := max (median sorted_long_term_window) PENALTY_FREE_ZONE_5
    let short_term_median := median sorted_short_term_window
    let effective_median :=
      if hf.in_range HardFork.V10 HardFork.V15 then
        min (max PENALTY_FREE_ZONE_5 short_term_median) (50 * long_term_median)
      else
        min (max long_term_median short_term_median) (50 * long_term_median)
    max effective_median (penalty_free_zone hf)

/-- `calculate_block_long_term_weight`. -/
def calculate_block_long_term_weight
    (hf : HardFork) (block_weight : Nat) (sorted_long_term_window : List Nat) : Nat :=
  if hf.in_range HardFork.V1 HardFork.V10 then
    block_weight
  else
    let long_term_median := max (penalty_free_zone hf) (median sorted_long_term_window)
    let stc_adj :=
      if hf.in_range HardFork.V10 HardFork.V15 then
        (long_term_median + long_term_median * 2 / 5, block_weight)
      else
        (long_term_median + long_term_median * 7 / 10,
         max block_weight (long_term_median * 10 / 17))
    min stc_adj.1 stc_adj.2

/- ## The chain-store collaborator (the `Database` service) -/

/-- `BlockWeightInfo`: per-block weight and long-term weight. -/
structure BlockWeightInfo : Type where
  block_weight : Nat
  long_term_weight : Nat
deriving DecidableEq

/-- `DatabaseRequest` (ranges `a..b` are half-open `[start, stop)`). -/
inductive DatabaseRequest : Type where
  | ChainHeight
  | BlockWeights (height : Nat)
  | BlockWeightsInRange (start stop : Nat)
  | BlockHFInfo (height : Nat)
  | BlockHfInfoInRange (start stop : Nat)
deriving DecidableEq

/-- `DatabaseResponse`. -/
inductive DatabaseResponse : Type where
  | ChainHeight (h : Nat)
  | BlockWeights (w : BlockWeightInfo)
  | BlockWeightsInRange (ws : List BlockWeightInfo)
  | BlockHFInfo (info : BlockHFInfo)
  | BlockHfInfoInRange (infos : List BlockHFInfo)
deriving DecidableEq

/-- The chain store: a request/response collaborator whose calls either
answer or fail with a propagated error. -/
def Database : Type := DatabaseRequest → Except ConsensusError DatabaseResponse

/-- `get_blocks_weight_in_range`: fetch block weights for `[start, stop)`.
A wrong-variant response is the `panic!` in the source. -/
def get_blocks_weight_in_range (start stop : Nat) (database : Database) :
    Fetched (List Nat) :=
  match database (.BlockWeightsInRange start stop) with
  | .error e => .err e
  | .ok (.BlockWeightsInRange weights) => .ok (weights.map (·.block_weight))
  | .ok _ => .fatal

/-- `get_long_term_weight_in_range`: fetch long-term weights for
`[start, stop)`. -/
def get_long_term_weight_in_range (start stop : Nat) (database : Database) :
    Fetched (List Nat) :=
  match database (.BlockWeightsInRange start stop) with
  | .error e => .err e
  | .ok (.BlockWeightsInRange weights) => .ok (weights.map (·.long_term_weight))
  | .ok _ => .fatal

/- ## BlockWeightsCache (src/consensus/src/block/weight.rs) -/

/-- `BlockWeightsCache`: the unsorted short-term window (a `VecDeque`),
the sorted long-term window, and the tip height (`u64`). -/
structure BlockWeightsCache : Type where
  short_term_block_weights : List Nat
  long_term_weights : List Nat
  tip_height : Nat
deriving DecidableEq

/-- `BlockWeightsCache::init_from_chain_height`.  `saturating_sub` is
`Nat` subtraction; `sort_unstable` on `usize` is modelled by insertion
sort (all correct sorts of a `Nat` list agree); `tip_height` is set to
`chain_height - 1` in `u64` arithmetic, which wraps to `2^64 - 1` when
`chain_height = 0` (a debug build panics there). -/
def BlockWeightsCache.init_from_chain_height (chain_height : Nat)
    (database : Database) : Fetched BlockWeightsCache :=
  match get_long_term_weight_in_range (chain_height - LONG_TERM_WINDOW) chain_height database with
  | .err e => .err e
  | .fatal => .fatal
  | .ok ltw =>
    let long_term_weights := List.insertionSort (· ≤ ·) ltw
    match get_blocks_weight_in_range (chain_height - SHORT_TERM_WINDOW) chain_height database with
    | .err e => .err e
    | .fatal => .fatal
    | .ok short_term_block_weights =>
      .ok ⟨short_term_block_weights, long_term_weights, u64_sub_one chain_height⟩

/-- `BlockWeightsCache::new_block_added`.  The `assert_eq!` on the height
is the `fatal` outcome; `binary_search`-then-`insert` on the sorted
long-term vector is ordered insertion; eviction `binary_search`-locates
the old long-term weight and removes one occurrence of it (`expect`ing it
to be present).  Note the order of operations: `tip_height` and the
long-term window are mutated *before* the chain-store fetch, so an error
from the store leaves those mutations behind. -/
def BlockWeightsCache.new_block_added (self : BlockWeightsCache)
    (block_height block_weight long_term_weight : Nat) (database : Database) :
    MutResult BlockWeightsCache :=
  if (self.tip_height + 1) % U64_MOD ≠ block_height then .fatal
  else
    let s1 : BlockWeightsCache := { self with tip_height := (self.tip_height + 1) % U64_MOD }
    let s2 : BlockWeightsCache :=
      { s1 with long_term_weights := List.orderedInsert (· ≤ ·) long_term_weight s1.long_term_weights }
    let after_evict : MutResult BlockWeightsCache :=
      if LONG_TERM_WINDOW ≤ block_height then
        match database (.BlockWeights (block_height - LONG_TERM_WINDOW)) with
        | .error e => .err e s2
        | .ok (.BlockWeights weights) =>
          if weights.long_term_weight ∈ s2.long_term_weights then
            .ok { s2 with
                  long_term_weights := s2.long_term_weights.erase weights.long_term_weight }
          else .fatal
        | .ok _ => .fatal
      else .ok s2
    match after_evict with
    | .ok s3 =>
      let pushed := s3.short_term_block_weights ++ [block_weight]
      .ok { s3 with short_term_block_weights :=
              if SHORT_TERM_WINDOW < pushed.length then pushed.tail else pushed }
    | r => r

/-- `BlockWeightsCache::next_block_long_term_weight`. -/
def BlockWeightsCache.next_block_long_term_weight (self : BlockWeightsCache)
    (hf : HardFork) (block_weight : Nat) : Nat :=
  calculate_block_long_term_weight hf block_weight self.long_term_weights

/-- `BlockWeightsCache::effective_median_block_weight`: clones and sorts
the short-term window, then delegates. -/
def BlockWeightsCache.effective_median_block_weight (self : BlockWeightsCache)
    (hf : HardFork) : Nat :=
  calculate_effective_median_block_weight hf
    (List.insertionSort (· ≤ ·) self.short_term_block_weights) self.long_term_weights

/-- `BlockWeightsCache::next_block_weight_limit`. -/
def BlockWeightsCache.next_block_weight_limit (self : BlockWeightsCache)
    (hf : HardFork) : Nat :=
  2 * self.effective_median_block_weight hf

/- ## HardForkState (src/consensus/src/hardforks.rs) -/

/-- Supermajority window check length — a week. -/
def DEFAULT_WINDOW_SIZE : Nat := 10080

/-- `HardForkConfig`. -/
structure HardForkConfig : Type where
  network : Network
  window : Nat
deriving DecidableEq

/-- `HardForkConfig::main_net`. -/
def HardForkConfig.main_net : HardForkConfig := ⟨.Mainnet, DEFAULT_WINDOW_SIZE⟩

/-- `HardForkState`. -/
structure HardForkState : Type where
  current_hardfork : HardFork
  next_hardfork : Option HardFork
  config : HardForkConfig
  votes : HFVotes
  last_height : Nat
deriving DecidableEq

/-- `HardForkState::set_hf`. -/
def HardForkState.set_hf (self : HardForkState) (new_hf : HardFork) : HardForkState :=
  { self with next_hardfork := new_hf.next_fork, current_hardfork := new_hf }

/-- Termination measure for the `check_set_new_hf` loop: each `set_hf`
strictly increases the number of the next fork (or clears it). -/
def hfMeasure (s : HardForkState) : Nat :=
  match s.next_hardfork with
  | none => 0
  | some h => 17 - h.num

/-- `HardForkState::check_set_new_hf`: greedily activate the next fork
while the height rule and the vote rule both hold.  Evaluating
`fork_height` on Testnet/Stagenet is a `todo!()` panic in the source,
hence the `none` (fatal) outcome. -/
def HardForkState.check_set_new_hf (self : HardForkState) : Option HardForkState :=
  match h : self.next_hardfork with
  | none => some self
  | some new_hf =>
    match new_hf.fork_height self.config.network with
    | none => none
    | some fh =>
      if self.last_height + 1 ≥ fh ∧
          self.votes.votes_for_hf new_hf ≥
            new_hf.votes_needed self.config.network self.config.window then
        (self.set_hf new_hf).check_set_new_hf
      else some self
termination_by hfMeasure self
decreasing_by
  simp only [hfMeasure, HardForkState.set_hf, h]
  cases new_hf <;> decide

/-- `get_votes_in_range`: tally the votes of blocks in `[start, stop)`. -/
def get_votes_in_range (database : Database) (start stop : Nat) :
    Fetched HFVotes :=
  match database (.BlockHfInfoInRange start stop) with
  | .error e => .err e
  | .ok (.BlockHfInfoInRange vote_list) =>
    .ok (vote_list.foldl (fun votes hf_info => votes.add_vote_for_hf hf_info.vote) HFVotes.default)
  | .ok _ => .fatal

/-- `HardForkState::init_from_chain_height`.  `block_start` uses
`saturating_sub`; the fetch of the top block's hf-info uses
`chain_height - 1` in `u64` arithmetic, which wraps to `2^64 - 1` when
`chain_height = 0` (a debug build panics there).  The `debug_assert_eq!`
on the vote total is compiled out in release builds and is not modelled. -/
def HardForkState.init_from_chain_height (config : HardForkConfig)
    (chain_height : Nat) (database : Database) : Fetched HardForkState :=
  let block_start := chain_height - config.window
  match get_votes_in_range database block_start chain_height with
  | .err e => .err e
  | .fatal => .fatal
  | .ok votes =>
    match database (.BlockHFInfo (u64_sub_one chain_height)) with
    | .error e => .err e
    | .ok (.BlockHFInfo hf_info) =>
      let current_hardfork := hf_info.version
      let next_hardfork := current_hardfork.next_fork
      let hfs : HardForkState :=
        ⟨current_hardfork, next_hardfork, config, votes, u64_sub_one chain_height⟩
      match hfs.check_set_new_hf with
      | some hfs2 => .ok hfs2
      | none => .fatal
    | .ok _ => .fatal

/-- Wrapping `u64` subtraction (for `height - offset` in the eviction
loop; a debug build panics on underflow). -/
def u64_sub (a b : Nat) : Nat := (a + (U64_MOD - b % U64_MOD)) % U64_MOD

/-- The body of `new_block`'s eviction loop: for each offset, fetch the
hf-info of `height - offset` and remove its vote.  The offset range is
computed once, before the loop runs (Rust evaluates the `Range` up
front), and an error mid-loop leaves the earlier removals applied. -/
def HardForkState.evict_step (database : Database) (height : Nat)
    (acc : MutResult HardForkState) (offset : Nat) : MutResult HardForkState :=
  match acc with
  | .ok st =>
    match database (.BlockHFInfo (u64_sub height offset)) with
    | .error e => .err e st
    | .ok (.BlockHFInfo hf_info) =>
      .ok { st with votes := st.votes.remove_vote_for_hf hf_info.vote }
    | .ok _ => .fatal
  | r => r

def HardForkState.evict_votes (database : Database) (height : Nat)
    (offsets : List Nat) (s : HardForkState) : MutResult HardForkState :=
  offsets.foldl (HardForkState.evict_step database height) (.ok s)

/-- `HardForkState::new_block`.  The height `assert_eq!` is the `fatal`
outcome; `last_height` and the vote counter are mutated *before* the
eviction fetches, so a store error leaves those mutations behind.  The
`debug_assert_eq!` after the loop is compiled out in release builds. -/
def HardForkState.new_block (self : HardForkState) (vote : HardFork)
    (height : Nat) (database : Database) : MutResult HardForkState :=
  if (self.last_height + 1) % U64_MOD ≠ height then .fatal
  else
    let s1 : HardForkState := { self with last_height := (self.last_height + 1) % U64_MOD }
    let s2 : HardForkState := { s1 with votes := s1.votes.add_vote_for_hf vote }
    let offsets := List.range' s2.config.window (s2.votes.total_votes - s2.config.window)
    match HardForkState.evict_votes database height offsets s2 with
    | .ok s3 =>
      match s3.check_set_new_hf with
      | some s4 => .ok s4
      | none => .fatal
    | r => r

/- ## A consistent chain store (for the initialisation claims) -/

/-- A chain: total per-height data served by an error-free chain store. -/
structure Chain : Type where
  weights : Nat → BlockWeightInfo
  hf_infos : Nat → BlockHFInfo
  height : Nat

/-- The chain store serving `c`: answers every request, never errors. -/
def Chain.db (c : Chain) : Database := fun req =>
  match req with
  | .ChainHeight => .ok (.ChainHeight c.height)
  | .BlockWeights h => .ok (.BlockWeights (c.weights h))
  | .BlockWeightsInRange start stop =>
    .ok (.BlockWeightsInRange ((List.range (stop - start)).map (fun i => c.weights (start + i))))
  | .BlockHFInfo h => .ok (.BlockHFInfo (c.hf_infos h))
  | .BlockHfInfoInRange start stop =>
    .ok (.BlockHfInfoInRange ((List.range (stop - start)).map (fun i => c.hf_infos (start + i))))

/- ## Theorems -/

/-- Claim C10: for every hard-fork version, every network and every window
size, `votes_needed` returns 0, because `fork_threshold` ignores its
network argument and returns 0 for all versions; hence the vote-count
condition of the activation rule is always satisfied on every network. -/
theorem votes_needed_always_zero :
    ∀ (v : HardFork) (network : Network) (window : Nat),
      v.votes_needed network window = 0 ∧
      ∀ votes : HFVotes, v.votes_needed network window ≤ votes.votes_for_hf v := by
  intro v network window
  refine ⟨?_, fun votes => ?_⟩ <;>
    simp [HardFork.votes_needed, HardFork.fork_threshold]

/-- Claim C3: `median` of a length-1 array is its element, of an
odd-length array is `a[n/2]`, of an even-length array is
`mid(a[n/2 - 1], a[n/2])`; `mid` lies between its ordered arguments, and
the computation has no overflow (and no underflow in the subtractions)
for inputs up to `2^64 - 1`. -/
theorem median_matches_reference :
    (∀ x : Nat, median [x] = x) ∧
    (∀ l : List Nat, l.Sorted (· ≤ ·) → l.length % 2 = 1 →
      median l = l.getD (l.length / 2) 0) ∧
    (∀ l : List Nat, l.Sorted (· ≤ ·) → l ≠ [] → l.length % 2 = 0 →
      median l = get_mid (l.getD (l.length / 2 - 1) 0) (l.getD (l.length / 2) 0)) ∧
    (∀ x y : Nat, x ≤ y → x ≤ get_mid x y ∧ get_mid x y ≤ y) ∧
    (∀ x y : Nat, x < U64_MOD → y < U64_MOD →
      2 * (x / 2) ≤ x ∧ 2 * (y / 2) ≤ y ∧
      x / 2 + y / 2 < U64_MOD ∧
      (x - 2 * (x / 2)) + (y - 2 * (y / 2)) < U64_MOD ∧
      get_mid x y < U64_MOD) := by
  have hM : U64_MOD = 18446744073709551616 := by norm_num [U64_MOD]
  refine ⟨fun x => rfl, fun l _ hodd => ?_, fun l _ _ heven => ?_,
    fun x y hxy => ?_, fun x y hx hy => ?_⟩
  · by_cases h1 : l.length = 1
    · simp [median, h1]
    · have h0 : l.length % 2 ≠ 0 := by omega
      simp [median, h1, h0]
  · have h1 : l.length ≠ 1 := by omega
    simp [median, h1, heven]
  · unfold get_mid; omega
  · rw [hM] at hx hy ⊢
    unfold get_mid; omega

/-- Witness for C3: scenario S1 (odd-length median), scenario S2 (the
overflow-safe even case at `u64::MAX - 1, u64::MAX`), and the `mid`
bounds at `3 ≤ 5`. -/
theorem median_matches_reference_witness :
    (([10, 20, 30, 40, 50] : List Nat).Sorted (· ≤ ·) ∧
      ([10, 20, 30, 40, 50] : List Nat).length % 2 = 1 ∧
      median [10, 20, 30, 40, 50] =
        ([10, 20, 30, 40, 50] : List Nat).getD
          (([10, 20, 30, 40, 50] : List Nat).length / 2) 0) ∧
    (([18446744073709551614, 18446744073709551615] : List Nat).Sorted (· ≤ ·) ∧
      ([18446744073709551614, 18446744073709551615] : List Nat) ≠ [] ∧
      ([18446744073709551614, 18446744073709551615] : List Nat).length % 2 = 0 ∧
      median [18446744073709551614, 18446744073709551615] =
        get_mid
          (([18446744073709551614, 18446744073709551615] : List Nat).getD
            (([18446744073709551614, 18446744073709551615] : List Nat).length / 2 - 1) 0)
          (([18446744073709551614, 18446744073709551615] : List Nat).getD
            (([18446744073709551614, 18446744073709551615] : List Nat).length / 2) 0)) ∧
    ((3 : Nat) ≤ 5 ∧ 3 ≤ get_mid 3 5 ∧ get_mid 3 5 ≤ 5) ∧
    ((18446744073709551615 : Nat) < U64_MOD ∧
      2 * (18446744073709551615 / 2) ≤ (18446744073709551615 : Nat) ∧
      2 * (3 / 2) ≤ (3 : Nat) ∧
      (18446744073709551615 : Nat) / 2 + 3 / 2 < U64_MOD ∧
      (18446744073709551615 - 2 * (18446744073709551615 / 2)) + ((3 : Nat) - 2 * (3 / 2)) < U64_MOD ∧
      get_mid 18446744073709551615 3 < U64_MOD) :=
  ⟨⟨by decide, by decide,
      median_matches_reference.2.1 [10, 20, 30, 40, 50] (by decide) (by decide)⟩,
    ⟨by decide, by decide, by decide,
      median_matches_reference.2.2.1 [18446744073709551614, 18446744073709551615]
        (by decide) (by decide) (by decide)⟩,
    ⟨by decide, median_matches_reference.2.2.2.1 3 5 (by decide)⟩,
    ⟨by decide,
      (median_matches_reference.2.2.2.2 18446744073709551615 3 (by decide) (by decide)).1,
      (median_matches_reference.2.2.2.2 18446744073709551615 3 (by decide) (by decide)).2.1,
      (median_matches_reference.2.2.2.2 18446744073709551615 3 (by decide) (by decide)).2.2.1,
      (median_matches_reference.2.2.2.2 18446744073709551615 3 (by decide) (by decide)).2.2.2.1,
      (median_matches_reference.2.2.2.2 18446744073709551615 3 (by decide) (by decide)).2.2.2.2⟩⟩

/-- The effective-median formula transcribed from the specification's
words (§4.4): `sm` / `lm` with the 300 000 clamp, the three fork ranges,
and the penalty-free-zone floor, for comparison with the code. -/
def spec_effective_median (hf : HardFork) (short_term_sorted long_term : List Nat) : Nat :=
  let sm := median short_term_sorted
  let lm := max (median long_term) 300000
  if hf.num < 10 then median short_term_sorted
  else if hf.num < 15 then max (min (max 300000 sm) (50 * lm)) (penalty_free_zone hf)
  else max (min (max lm sm) (50 * lm)) (penalty_free_zone hf)

/-- Claim C4: for every cache with non-empty windows and every hard fork,
`effective_median_block_weight` equals the specification's formula on the
sorted short-term window and the long-term window. -/
theorem effective_median_matches_spec :
    ∀ (s : BlockWeightsCache) (hf : HardFork),
      s.short_term_block_weights ≠ [] → s.long_term_weights ≠ [] →
      s.effective_median_block_weight hf =
        spec_effective_median hf
          (List.insertionSort (· ≤ ·) s.short_term_block_weights)
          s.long_term_weights := by
  intro s hf _ _
  cases hf <;> rfl

/-- Witness for C4: scenario S3 — fork V5, short-term `[1000, 2000, 3000]`. -/
theorem effective_median_matches_spec_witness :
    (BlockWeightsCache.mk [1000, 2000, 3000] [1] 2).short_term_block_weights ≠ [] ∧
    (BlockWeightsCache.mk [1000, 2000, 3000] [1] 2).long_term_weights ≠ [] ∧
    (BlockWeightsCache.mk [1000, 2000, 3000] [1] 2).effective_median_block_weight HardFork.V5 =
      spec_effective_median HardFork.V5
        (List.insertionSort (· ≤ ·)
          (BlockWeightsCache.mk [1000, 2000, 3000] [1] 2).short_term_block_weights)
        (BlockWeightsCache.mk [1000, 2000, 3000] [1] 2).long_term_weights :=
  ⟨by decide, by decide,
    effective_median_matches_spec (BlockWeightsCache.mk [1000, 2000, 3000] [1] 2)
      HardFork.V5 (by decide) (by decide)⟩

/-- The next-block long-term-weight formula transcribed from the
specification's words (§4.4): identity below V10, the 2/5 constraint on
[V10, V15), and the 7/10 constraint with the 10/17 floor from V15 on. -/
def spec_next_block_long_term_weight (hf : HardFork) (block_weight : Nat)
    (long_term : List Nat) : Nat :=
  if hf.num < 10 then block_weight
  else
    let ltm := max (penalty_free_zone hf) (median long_term)
    if hf.num < 15 then min (ltm + ltm * 2 / 5) block_weight
    else min (ltm + ltm * 7 / 10) (max block_weight (ltm * 10 / 17))

/-- Claim C5: for every cache with a non-empty long-term window, every
hard fork and every candidate weight, `next_block_long_term_weight`
equals the specification's formula; in particular it is the identity at
V9. -/
theorem next_block_long_term_weight_matches_spec :
    ∀ (s : BlockWeightsCache) (hf : HardFork) (w : Nat),
      s.long_term_weights ≠ [] →
      s.next_block_long_term_weight hf w =
        spec_next_block_long_term_weight hf w s.long_term_weights ∧
      s.next_block_long_term_weight HardFork.V9 w = w := by
  intro s hf w _
  exact ⟨by cases hf <;> rfl, rfl⟩

/-- Witness for C5: scenario S5 — fork V16, `block_weight = 10000`,
long-term window `[300000]`. -/
theorem next_block_long_term_weight_matches_spec_witness :
    (BlockWeightsCache.mk [] [300000] 0).long_term_weights ≠ [] ∧
    ((BlockWeightsCache.mk [] [300000] 0).next_block_long_term_weight HardFork.V16 10000 =
        spec_next_block_long_term_weight HardFork.V16 10000
          (BlockWeightsCache.mk [] [300000] 0).long_term_weights ∧
      (BlockWeightsCache.mk [] [300000] 0).next_block_long_term_weight HardFork.V9 10000 = 10000) :=
  ⟨by decide,
    next_block_long_term_weight_matches_spec (BlockWeightsCache.mk [] [300000] 0)
      HardFork.V16 10000 (by decide)⟩

/-- Dropping more elements never increases the sum of a `Nat` list. -/
theorem sum_drop_le (l : List Nat) (i j : Nat) (hij : i ≤ j) :
    (l.drop j).sum ≤ (l.drop i).sum := by
  calc (l.drop j).sum = (List.drop (j - i) (l.drop i)).sum := by
        rw [List.drop_drop, Nat.add_sub_cancel' hij]
    _ ≤ (List.take (j - i) (l.drop i)).sum + (List.drop (j - i) (l.drop i)).sum :=
        Nat.le_add_left _ _
    _ = (l.drop i).sum := by rw [← List.sum_append, List.take_append_drop]

/-- All sixteen hard-fork versions in order. -/
def allForks : List HardFork :=
  [.V1, .V2, .V3, .V4, .V5, .V6, .V7, .V8,
   .V9, .V10, .V11, .V12, .V13, .V14, .V15, .V16]

/-- Claim C7: `votes_for_hf V` is the inclusive upward suffix sum — the
sum of the counters of every version `≥ V`; consequently it is
non-increasing as `V` rises, and `votes_for_hf V1` equals `total_votes`. -/
theorem votes_for_hf_rollup :
    ∀ v : HFVotes, v.votes.length = 16 →
      (∀ hf : HardFork, v.votes_for_hf hf =
        (allForks.map
          (fun w => if hf.num ≤ w.num then v.votes.getD (w.num - 1) 0 else 0)).sum) ∧
      (∀ hf1 hf2 : HardFork, hf1.num ≤ hf2.num →
        v.votes_for_hf hf2 ≤ v.votes_for_hf hf1) ∧
      v.votes_for_hf HardFork.V1 = v.total_votes := by
  intro v hl
  refine ⟨?_, fun hf1 hf2 h12 => ?_, ?_⟩
  · intro hf
    obtain ⟨l⟩ := v
    simp only [HFVotes.votes_for_hf] at *
    rcases l with _ | ⟨a1, l⟩; · simp at hl
    rcases l with _ | ⟨a2, l⟩; · simp at hl
    rcases l with _ | ⟨a3, l⟩; · simp at hl
    rcases l with _ | ⟨a4, l⟩; · simp at hl
    rcases l with _ | ⟨a5, l⟩; · simp at hl
    rcases l with _ | ⟨a6, l⟩; · simp at hl
    rcases l with _ | ⟨a7, l⟩; · simp at hl
    rcases l with _ | ⟨a8, l⟩; · simp at hl
    rcases l with _ | ⟨a9, l⟩; · simp at hl
    rcases l with _ | ⟨a10, l⟩; · simp at hl
    rcases l with _ | ⟨a11, l⟩; · simp at hl
    rcases l with _ | ⟨a12, l⟩; · simp at hl
    rcases l with _ | ⟨a13, l⟩; · simp at hl
    rcases l with _ | ⟨a14, l⟩; · simp at hl
    rcases l with _ | ⟨a15, l⟩; · simp at hl
    rcases l with _ | ⟨a16, l⟩; · simp at hl
    have hnil : l = [] := by
      simp only [List.length_cons] at hl
      exact List.length_eq_zero.mp (by omega)
    subst hnil
    cases hf <;> simp [allForks, HardFork.num]
  · simp only [HFVotes.votes_for_hf]
    exact sum_drop_le _ _ _ (Nat.sub_le_sub_right h12 1)
  · simp [HFVotes.votes_for_hf, HFVotes.total_votes, HardFork.num]

/-- Witness for C7: the rollup properties at a concrete 16-counter
window. -/
theorem votes_for_hf_rollup_witness :
    (HFVotes.mk [1, 2, 3, 4, 5, 6, 7, 8, 9, 10, 11, 12, 13, 14, 15, 16]).votes.length = 16 ∧
    ((∀ hf : HardFork,
        (HFVotes.mk [1, 2, 3, 4, 5, 6, 7, 8, 9, 10, 11, 12, 13, 14, 15, 16]).votes_for_hf hf =
          (allForks.map
            (fun w => if hf.num ≤ w.num then
              (HFVotes.mk [1, 2, 3, 4, 5, 6, 7, 8, 9, 10, 11, 12, 13, 14, 15, 16]).votes.getD
                (w.num - 1) 0 else 0)).sum) ∧
      (∀ hf1 hf2 : HardFork, hf1.num ≤ hf2.num →
        (HFVotes.mk [1, 2, 3, 4, 5, 6, 7, 8, 9, 10, 11, 12, 13, 14, 15, 16]).votes_for_hf hf2 ≤
          (HFVotes.mk [1, 2, 3, 4, 5, 6, 7, 8, 9, 10, 11, 12, 13, 14, 15, 16]).votes_for_hf hf1) ∧
      (HFVotes.mk [1, 2, 3, 4, 5, 6, 7, 8, 9, 10, 11, 12, 13, 14, 15, 16]).votes_for_hf HardFork.V1 =
        (HFVotes.mk [1, 2, 3, 4, 5, 6, 7, 8, 9, 10, 11, 12, 13, 14, 15, 16]).total_votes) :=
  ⟨by decide,
    votes_for_hf_rollup (HFVotes.mk [1, 2, 3, 4, 5, 6, 7, 8, 9, 10, 11, 12, 13, 14, 15, 16])
      (by decide)⟩

/-- Unfolding `check_set_new_hf`: no next fork — the loop stops at once. -/
theorem check_set_new_hf_eq_of_none (s : HardForkState)
    (h : s.next_hardfork = none) : s.check_set_new_hf = some s := by
  rw [HardForkState.check_set_new_hf.eq_def]
  split
  · rfl
  · rename_i new_hf heq
    rw [h] at heq
    cases heq

/-- Unfolding `check_set_new_hf`: the fork-height table is missing
(`todo!()` on testnet/stagenet) — the call panics. -/
theorem check_set_new_hf_eq_of_fh_none (s : HardForkState) (new_hf : HardFork)
    (h1 : s.next_hardfork = some new_hf)
    (h2 : new_hf.fork_height s.config.network = none) :
    s.check_set_new_hf = none := by
  rw [HardForkState.check_set_new_hf.eq_def]
  split
  · rename_i heq
    rw [h1] at heq
    cases heq
  · rename_i nf heq
    rw [h1] at heq
    injection heq with heq
    subst heq
    split
    · rfl
    · rename_i fh hfh
      rw [h2] at hfh
      cases hfh

/-- Unfolding `check_set_new_hf`: the activation condition holds — one
`set_hf` step and the loop continues. -/
theorem check_set_new_hf_eq_of_step (s : HardForkState) (new_hf : HardFork)
    (fh : Nat) (h1 : s.next_hardfork = some new_hf)
    (h2 : new_hf.fork_height s.config.network = some fh)
    (hc : s.last_height + 1 ≥ fh ∧
      s.votes.votes_for_hf new_hf ≥
        new_hf.votes_needed s.config.network s.config.window) :
    s.check_set_new_hf = (s.set_hf new_hf).check_set_new_hf := by
  rw [HardForkState.check_set_new_hf.eq_def]
  split
  · rename_i heq
    rw [h1] at heq
    cases heq
  · rename_i nf heq
    rw [h1] at heq
    injection heq with heq
    subst heq
    split
    · rename_i hfh
      rw [h2] at hfh
      cases hfh
    · rename_i fh2 hfh
      rw [h2] at hfh
      injection hfh with hfh
      subst hfh
      rw [if_pos hc]

/-- Unfolding `check_set_new_hf`: the activation condition fails — the
loop stops. -/
theorem check_set_new_hf_eq_of_stop (s : HardForkState) (new_hf : HardFork)
    (fh : Nat) (h1 : s.next_hardfork = some new_hf)
    (h2 : new_hf.fork_height s.config.network = some fh)
    (hc : ¬(s.last_height + 1 ≥ fh ∧
      s.votes.votes_for_hf new_hf ≥
        new_hf.votes_needed s.config.network s.config.window)) :
    s.check_set_new_hf = some s := by
  rw [HardForkState.check_set_new_hf.eq_def]
  split
  · rfl
  · rename_i nf heq
    rw [h1] at heq
    injection heq with heq
    subst heq
    split
    · rename_i hfh
      rw [h2] at hfh
      cases hfh
    · rename_i fh2 hfh
      rw [h2] at hfh
      injection hfh with hfh
      subst hfh
      rw [if_neg hc]

/-- Claim C8: activation is a fixed point — if `check_set_new_hf` returns
a state, running `check_set_new_hf` again on that state changes nothing. -/
theorem check_set_new_hf_fixed_point :
    ∀ s t : HardForkState,
      s.check_set_new_hf = some t → t.check_set_new_hf = some t := by
  intro s
  induction s using HardForkState.check_set_new_hf.induct with
  | case1 x h1 =>
    intro t h
    rw [check_set_new_hf_eq_of_none x h1] at h
    cases h
    exact check_set_new_hf_eq_of_none x h1
  | case2 x new_hf h1 h2 =>
    intro t h
    rw [check_set_new_hf_eq_of_fh_none x new_hf h1 h2] at h
    cases h
  | case3 x new_hf h1 fh h2 hc ih =>
    intro t h
    rw [check_set_new_hf_eq_of_step x new_hf fh h1 h2 hc] at h
    exact ih t h
  | case4 x new_hf h1 fh h2 hc =>
    intro t h
    rw [check_set_new_hf_eq_of_stop x new_hf fh h1 h2 hc] at h
    cases h
    exact check_set_new_hf_eq_of_stop x new_hf fh h1 h2 hc

/-- A concrete state one block before the V16 mainnet activation height. -/
def hfs_before_v16 : HardForkState :=
  ⟨.V15, some .V16, HardForkConfig.main_net, HFVotes.default, 2689607⟩

/-- Witness for C8: activating V16 at its mainnet height yields a state
on which a second `check_set_new_hf` is the identity. -/
theorem check_set_new_hf_fixed_point_witness :
    (hfs_before_v16.set_hf .V16).check_set_new_hf =
      some (hfs_before_v16.set_hf .V16) :=
  check_set_new_hf_fixed_point hfs_before_v16 (hfs_before_v16.set_hf .V16)
    ((check_set_new_hf_eq_of_step hfs_before_v16 .V16 2689608 rfl rfl
        (by decide)).trans
      (check_set_new_hf_eq_of_none (hfs_before_v16.set_hf .V16) rfl))

/-- A chain store for an empty chain: it can answer any (empty) range
tally, and has no block to answer a by-height request with. -/
def emptyChainDb : Database := fun req =>
  match req with
  | .BlockHfInfoInRange _ _ => .ok (.BlockHfInfoInRange [])
  | _ => .error (.Database 0)

/-- Claim C2 (code bug): on a fresh chain (`chain_height = 0`),
`HardForkState::init_from_chain_height` does not succeed with V1: it
computes `chain_height - 1` on a `u64`, which underflows — a debug build
panics, and a release build asks the store for the hf-info of block
`2^64 - 1`, so the call fails with the store's error instead of returning
a V1 state. -/
theorem hardfork_init_height_zero_underflows :
    u64_sub_one 0 = U64_MOD - 1 ∧
    HardForkState.init_from_chain_height HardForkConfig.main_net 0 emptyChainDb =
      .err (.Database 0) := by
  constructor
  · decide
  · decide

/-- Eviction-loop pass-through: once the accumulator is an error, the
remaining iterations change nothing. -/
theorem evict_foldl_err (database : Database) (height : Nat) :
    ∀ (offsets : List Nat) (e : ConsensusError) (s0 : HardForkState),
      offsets.foldl (HardForkState.evict_step database height) (.err e s0) =
        .err e s0 := by
  intro offsets
  induction offsets with
  | nil => intro e s0; rfl
  | cons o os ih => intro e s0; exact ih e s0

/-- Eviction-loop pass-through for the fatal outcome. -/
theorem evict_foldl_fatal (database : Database) (height : Nat) :
    ∀ offsets : List Nat,
      offsets.foldl (HardForkState.evict_step database height) .fatal = .fatal := by
  intro offsets
  induction offsets with
  | nil => rfl
  | cons o os ih => exact ih

/-- If the eviction loop stops with a propagated error, the fields other
than the vote counters are those of the state the loop started from. -/
theorem evict_votes_err_fields (database : Database) (height : Nat) :
    ∀ (offsets : List Nat) (s : HardForkState) (e : ConsensusError) (s' : HardForkState),
      HardForkState.evict_votes database height offsets s = .err e s' →
      s'.last_height = s.last_height ∧ s'.current_hardfork = s.current_hardfork ∧
      s'.next_hardfork = s.next_hardfork ∧ s'.config = s.config := by
  intro offsets
  induction offsets with
  | nil =>
    intro s e s' h
    cases h
  | cons o os ih =>
    intro s e s' h
    rw [HardForkState.evict_votes, List.foldl_cons] at h
    rcases hdb : database (.BlockHFInfo (u64_sub height o)) with e0 | resp
    · rw [show HardForkState.evict_step database height (.ok s) o = .err e0 s by
        simp [HardForkState.evict_step, hdb]] at h
      rw [evict_foldl_err] at h
      cases h
      exact ⟨rfl, rfl, rfl, rfl⟩
    · cases resp with
      | BlockHFInfo info =>
        rw [show HardForkState.evict_step database height (.ok s) o =
            .ok { s with votes := s.votes.remove_vote_for_hf info.vote } by
          simp [HardForkState.evict_step, hdb]] at h
        exact ih { s with votes := s.votes.remove_vote_for_hf info.vote } e s' h
      | ChainHeight hgt =>
        rw [show HardForkState.evict_step database height (.ok s) o = .fatal by
          simp [HardForkState.evict_step, hdb]] at h
        rw [evict_foldl_fatal] at h
        cases h
      | BlockWeights w =>
        rw [show HardForkState.evict_step database height (.ok s) o = .fatal by
          simp [HardForkState.evict_step, hdb]] at h
        rw [evict_foldl_fatal] at h
        cases h
      | BlockWeightsInRange ws =>
        rw [show HardForkState.evict_step database height (.ok s) o = .fatal by
          simp [HardForkState.evict_step, hdb]] at h
        rw [evict_foldl_fatal] at h
        cases h
      | BlockHfInfoInRange infos =>
        rw [show HardForkState.evict_step database height (.ok s) o = .fatal by
          simp [HardForkState.evict_step, hdb]] at h
        rw [evict_foldl_fatal] at h
        cases h

/-- Claim C1 (amended): when the chain-store fetch inside an ingest call
fails, the error is propagated to the caller, but the cache state is
*not* unchanged — the mutations performed before the fetch persist:
`new_block_added` has already incremented `tip_height` and inserted the
long-term weight (the short-term window is untouched), and `new_block`
has already incremented `last_height` (leaving `current_hardfork`,
`next_hardfork` and the config untouched). -/
theorem chain_store_error_after_partial_mutation :
    (∀ (s : BlockWeightsCache) (bh bw ltw : Nat) (database : Database)
        (e : ConsensusError) (s' : BlockWeightsCache),
      s.new_block_added bh bw ltw database = .err e s' →
      database (.BlockWeights (bh - LONG_TERM_WINDOW)) = .error e ∧
      s' = ⟨s.short_term_block_weights,
            List.orderedInsert (· ≤ ·) ltw s.long_term_weights,
            (s.tip_height + 1) % U64_MOD⟩) ∧
    (∀ (s : HardForkState) (vote : HardFork) (height : Nat)
        (database : Database) (e : ConsensusError) (s' : HardForkState),
      s.new_block vote height database = .err e s' →
      s'.last_height = (s.last_height + 1) % U64_MOD ∧
      s'.current_hardfork = s.current_hardfork ∧
      s'.next_hardfork = s.next_hardfork ∧ s'.config = s.config) := by
  constructor
  · intro s bh bw ltw database e s' h
    simp only [BlockWeightsCache.new_block_added] at h
    split at h
    · cases h
    · by_cases hev : LONG_TERM_WINDOW ≤ bh
      · rw [if_pos hev] at h
        rcases hdb : database (.BlockWeights (bh - LONG_TERM_WINDOW)) with e0 | resp
        · rw [hdb] at h
          cases h
          exact ⟨rfl, rfl⟩
        · rw [hdb] at h
          cases resp with
          | BlockWeights w =>
            dsimp only [] at h
            by_cases hmem : w.long_term_weight ∈
                List.orderedInsert (· ≤ ·) ltw s.long_term_weights
            · rw [if_pos hmem] at h
              dsimp only [] at h
              cases h
            · rw [if_neg hmem] at h
              dsimp only [] at h
              cases h
          | ChainHeight hgt => dsimp only [] at h; cases h
          | BlockWeightsInRange ws => dsimp only [] at h; cases h
          | BlockHFInfo info => dsimp only [] at h; cases h
          | BlockHfInfoInRange infos => dsimp only [] at h; cases h
      · rw [if_neg hev] at h
        dsimp only [] at h
        cases h
  · intro s vote height database e s' h
    simp only [HardForkState.new_block] at h
    split at h
    · cases h
    · rcases hev : HardForkState.evict_votes database height
          (List.range' s.config.window
            ((s.votes.add_vote_for_hf vote).total_votes - s.config.window))
          { s with last_height := (s.last_height + 1) % U64_MOD,
                   votes := s.votes.add_vote_for_hf vote } with s3 | ⟨e1, s1⟩ | _
      · rw [hev] at h
        dsimp only [] at h
        split at h
        · cases h
        · cases h
      · rw [hev] at h
        dsimp only [] at h
        cases h
        have hf := evict_votes_err_fields database height _ _ _ _ hev
        simpa using hf
      · rw [hev] at h
        dsimp only [] at h
        cases h

/-- A chain store that fails every request. -/
def errDb : Database := fun _ => .error (.Database 7)

/-- Counterexample to C1 as stated: a concrete ingest whose chain-store
fetch errors propagates the error but leaves the cache mutated —
`tip_height` is incremented and the long-term weight is inserted before
the fetch, so the resulting state differs from the initial one. -/
theorem chain_store_error_mutates_weight_cache :
    BlockWeightsCache.new_block_added ⟨[], [5], 99999⟩ 100000 3 7 errDb =
      .err (.Database 7) ⟨[], [5, 7], 100000⟩ ∧
    (⟨[], [5, 7], 100000⟩ : BlockWeightsCache) ≠ ⟨[], [5], 99999⟩ := by
  constructor
  · decide
  · decide

/-- Witness for the amended C1: the partial-mutation description applied
to the concrete failing ingest. -/
theorem chain_store_error_after_partial_mutation_witness :
    errDb (.BlockWeights (100000 - LONG_TERM_WINDOW)) = .error (.Database 7) ∧
    (⟨[], [5, 7], 100000⟩ : BlockWeightsCache) =
      ⟨([] : List Nat), List.orderedInsert (· ≤ ·) 7 [5], (99999 + 1) % U64_MOD⟩ :=
  chain_store_error_after_partial_mutation.1 ⟨[], [5], 99999⟩ 100000 3 7 errDb
    (.Database 7) ⟨[], [5, 7], 100000⟩ (by decide)

/-- Ordered insertion of `0` into a run of `0`s just lengthens the run. -/
theorem orderedInsert_replicate_zero (n : Nat) :
    List.orderedInsert (· ≤ ·) 0 (List.replicate n 0) = List.replicate (n + 1) 0 := by
  cases n with
  | zero => rfl
  | succ m => simp [List.replicate_succ, List.orderedInsert]

/-- Counterexample to C9 as stated: the spec's listed invariants (window
size bounds, sortedness, tip tracking) are not inductive by themselves.
This state satisfies all of them — a full 100 000-entry long-term window
at tip height 0 — yet a successful ingest of the next block (height 1,
below `LONG_TERM_WINDOW`, so nothing is evicted) grows the long-term
window to 100 001 entries, breaking the `≤ 100 000` bound. -/
theorem stated_invariant_not_inductive :
    ((⟨[], List.replicate 100000 0, 0⟩ : BlockWeightsCache).short_term_block_weights.length ≤ 100 ∧
      (⟨[], List.replicate 100000 0, 0⟩ : BlockWeightsCache).long_term_weights.length ≤ 100000 ∧
      (⟨[], List.replicate 100000 0, 0⟩ : BlockWeightsCache).long_term_weights.Sorted (· ≤ ·)) ∧
    BlockWeightsCache.new_block_added ⟨[], List.replicate 100000 0, 0⟩ 1 0 0 errDb =
      .ok ⟨[0], List.replicate 100001 0, 1⟩ ∧
    ¬(List.replicate 100001 (0 : Nat)).length ≤ 100000 := by
  refine ⟨⟨?_, ?_, List.pairwise_replicate.mpr (Or.inr (le_refl 0))⟩, ?_, ?_⟩
  · show ([] : List Nat).length ≤ 100
    simp
  · show (List.replicate 100000 (0 : Nat)).length ≤ 100000
    rw [List.length_replicate]
  · have e1 : ¬((0 + 1) % U64_MOD ≠ 1) := by norm_num [U64_MOD]
    have hev : ¬(LONG_TERM_WINDOW ≤ 1) := by norm_num [LONG_TERM_WINDOW]
    simp only [BlockWeightsCache.new_block_added]
    rw [if_neg e1, if_neg hev]
    dsimp only []
    rw [orderedInsert_replicate_zero]
    norm_num [U64_MOD, SHORT_TERM_WINDOW]
  · show ¬(List.replicate 100001 (0 : Nat)).length ≤ 100000
    rw [List.length_replicate]
    norm_num

/-- The strengthened window invariant: the spec's size and sortedness
bounds, plus the linkage of the long-term window's size to the tip height
that makes the bounds inductive. -/
def weights_invariant (s : BlockWeightsCache) : Prop :=
  s.short_term_block_weights.length ≤ SHORT_TERM_WINDOW ∧
  s.long_term_weights.length ≤ LONG_TERM_WINDOW ∧
  s.long_term_weights.length ≤ s.tip_height + 1 ∧
  s.long_term_weights.Sorted (· ≤ ·)

/-- Claim C9 (amended): every successful, non-wrapping ingest preserves
the strengthened invariant — so the short-term window stays within 100
entries, the long-term window within 100 000 and sorted — and afterwards
`tip_height` equals the ingested block's height. -/
theorem invariant_preserved_by_new_block_added :
    ∀ (s s' : BlockWeightsCache) (bw ltw : Nat) (database : Database),
      weights_invariant s → s.tip_height + 1 < U64_MOD →
      s.new_block_added (s.tip_height + 1) bw ltw database = .ok s' →
      weights_invariant s' ∧ s'.tip_height = s.tip_height + 1 := by
  intro s s' bw ltw database hinv hlt h
  obtain ⟨h100, hL, hlink, hsort⟩ := hinv
  have e1 : (s.tip_height + 1) % U64_MOD = s.tip_height + 1 := Nat.mod_eq_of_lt hlt
  have hsort2 : (List.orderedInsert (· ≤ ·) ltw s.long_term_weights).Sorted (· ≤ ·) :=
    hsort.orderedInsert ltw s.long_term_weights
  have hlen2 : (List.orderedInsert (· ≤ ·) ltw s.long_term_weights).length =
      s.long_term_weights.length + 1 := List.orderedInsert_length _ _ _
  simp only [BlockWeightsCache.new_block_added, e1] at h
  rw [if_neg (by exact fun hne => hne rfl)] at h
  by_cases hev : LONG_TERM_WINDOW ≤ s.tip_height + 1
  · rw [if_pos hev] at h
    rcases hdb : database (.BlockWeights (s.tip_height + 1 - LONG_TERM_WINDOW))
        with e0 | resp
    · rw [hdb] at h
      dsimp only [] at h
      cases h
    · rw [hdb] at h
      cases resp with
      | BlockWeights w =>
        dsimp only [] at h
        by_cases hmem : w.long_term_weight ∈
            List.orderedInsert (· ≤ ·) ltw s.long_term_weights
        · rw [if_pos hmem] at h
          dsimp only [] at h
          have hlen3 : ((List.orderedInsert (· ≤ ·) ltw s.long_term_weights).erase
              w.long_term_weight).length = s.long_term_weights.length := by
            rw [List.length_erase_of_mem hmem, hlen2]
            omega
          have hsort3 : ((List.orderedInsert (· ≤ ·) ltw s.long_term_weights).erase
              w.long_term_weight).Sorted (· ≤ ·) :=
            List.Pairwise.sublist (List.erase_sublist _ _) hsort2
          by_cases hsl : SHORT_TERM_WINDOW <
              (s.short_term_block_weights ++ [bw]).length
          · rw [if_pos hsl] at h
            cases h
            refine ⟨⟨?_, ?_, ?_, hsort3⟩, rfl⟩
            · simp only [List.length_tail, List.length_append, List.length_singleton]
              omega
            · simp only [hlen3]
              exact hL
            · simp only [hlen3]
              omega
          · rw [if_neg hsl] at h
            cases h
            refine ⟨⟨?_, ?_, ?_, hsort3⟩, rfl⟩
            · simp only [List.length_append, List.length_singleton] at hsl ⊢
              omega
            · simp only [hlen3]
              exact hL
            · simp only [hlen3]
              omega
        · rw [if_neg hmem] at h
          dsimp only [] at h
          cases h
      | ChainHeight hgt => dsimp only [] at h; cases h
      | BlockWeightsInRange ws => dsimp only [] at h; cases h
      | BlockHFInfo info => dsimp only [] at h; cases h
      | BlockHfInfoInRange infos => dsimp only [] at h; cases h
  · rw [if_neg hev] at h
    dsimp only [] at h
    by_cases hsl : SHORT_TERM_WINDOW < (s.short_term_block_weights ++ [bw]).length
    · rw [if_pos hsl] at h
      cases h
      refine ⟨⟨?_, ?_, ?_, hsort2⟩, rfl⟩
      · simp only [List.length_tail, List.length_append, List.length_singleton]
        omega
      · simp only [hlen2]
        simp only [LONG_TERM_WINDOW] at hev ⊢
        omega
      · simp only [hlen2]
        omega
    · rw [if_neg hsl] at h
      cases h
      refine ⟨⟨?_, ?_, ?_, hsort2⟩, rfl⟩
      · simp only [List.length_append, List.length_singleton] at hsl ⊢
        omega
      · simp only [hlen2]
        simp only [LONG_TERM_WINDOW] at hev ⊢
        omega
      · simp only [hlen2]
        omega

/-- Witness for the amended C9: ingesting block 1 into an empty cache at
tip height 0 preserves the strengthened invariant. -/
theorem invariant_preserved_by_new_block_added_witness :
    weights_invariant ⟨[], [], 0⟩ ∧
    (⟨[], [], 0⟩ : BlockWeightsCache).tip_height + 1 < U64_MOD ∧
    BlockWeightsCache.new_block_added ⟨[], [], 0⟩
      ((⟨[], [], 0⟩ : BlockWeightsCache).tip_height + 1) 2 3 errDb = .ok ⟨[2], [3], 1⟩ ∧
    (weights_invariant ⟨[2], [3], 1⟩ ∧
      (⟨[2], [3], 1⟩ : BlockWeightsCache).tip_height =
        (⟨[], [], 0⟩ : BlockWeightsCache).tip_height + 1) :=
  ⟨⟨by decide, by decide, by decide, by decide⟩, by decide, by decide,
    invariant_preserved_by_new_block_added ⟨[], [], 0⟩ ⟨[2], [3], 1⟩ 2 3 errDb
      ⟨by decide, by decide, by decide, by decide⟩ (by decide) (by decide)⟩

/- ## Rebuild equivalence (claim C6) -/

/-- The window of values `f lo, f (lo+1), …, f (hi-1)` in chain order. -/
def winMap (f : Nat → Nat) (lo hi : Nat) : List Nat :=
  (List.range (hi - lo)).map (fun i => f (lo + i))

/-- The block weight of block `i` on chain `c`. -/
def Chain.bw (c : Chain) (i : Nat) : Nat := (c.weights i).block_weight

/-- The long-term weight of block `i` on chain `c`. -/
def Chain.ltw (c : Chain) (i : Nat) : Nat := (c.weights i).long_term_weight

theorem winMap_snoc (f : Nat → Nat) (lo hi : Nat) (h : lo ≤ hi) :
    winMap f lo (hi + 1) = winMap f lo hi ++ [f hi] := by
  unfold winMap
  rw [show hi + 1 - lo = (hi - lo) + 1 from by omega, List.range_succ, List.map_append]
  simp only [List.map_cons, List.map_nil]
  rw [show lo + (hi - lo) = hi from by omega]

theorem winMap_cons (f : Nat → Nat) (lo hi : Nat) (h : lo < hi) :
    winMap f lo hi = f lo :: winMap f (lo + 1) hi := by
  unfold winMap
  rw [show hi - lo = (hi - (lo + 1)) + 1 from by omega, List.range_succ_eq_map,
    List.map_cons, List.map_map]
  simp only [Nat.add_zero]
  congr 1
  apply List.map_congr_left
  intro a _
  simp only [Function.comp]
  congr 1
  omega

/-- The cache state determined by chain `c` at chain height `h`: the last
up-to-100 block weights in order, the last up-to-100 000 long-term
weights sorted, and the wrapped tip height `h - 1`. -/
def stateAt (c : Chain) (h : Nat) : BlockWeightsCache :=
  ⟨winMap c.bw (h - SHORT_TERM_WINDOW) h,
   List.insertionSort (· ≤ ·) (winMap c.ltw (h - LONG_TERM_WINDOW) h),
   u64_sub_one h⟩

/-- Initialisation against a consistent chain store produces exactly
`stateAt`. -/
theorem init_from_chain_height_eq_stateAt (c : Chain) (h : Nat) :
    BlockWeightsCache.init_from_chain_height h c.db = .ok (stateAt c h) := by
  have hlt : get_long_term_weight_in_range (h - LONG_TERM_WINDOW) h c.db =
      .ok (winMap c.ltw (h - LONG_TERM_WINDOW) h) := by
    unfold get_long_term_weight_in_range Chain.db
    dsimp only []
    rw [List.map_map]
    rfl
  have hbw : get_blocks_weight_in_range (h - SHORT_TERM_WINDOW) h c.db =
      .ok (winMap c.bw (h - SHORT_TERM_WINDOW) h) := by
    unfold get_blocks_weight_in_range Chain.db
    dsimp only []
    rw [List.map_map]
    rfl
  unfold BlockWeightsCache.init_from_chain_height
  rw [hlt]
  dsimp only []
  rw [hbw]
  rfl

/-- Inserting into the sort of a list sorts the extended list. -/
theorem sortedInsert_append (x : Nat) (l : List Nat) :
    List.orderedInsert (· ≤ ·) x (List.insertionSort (· ≤ ·) l) =
      List.insertionSort (· ≤ ·) (l ++ [x]) :=
  @List.eq_of_perm_of_sorted Nat (· ≤ ·) inferInstance _ _
    ((List.perm_orderedInsert _ x _).trans
      (((List.perm_insertionSort _ l).cons x).trans
        ((List.perm_append_singleton x l).symm.trans
          (List.perm_insertionSort _ (l ++ [x])).symm)))
    ((List.sorted_insertionSort _ _).orderedInsert x _)
    (List.sorted_insertionSort _ _)

/-- Inserting into the sort of `v :: l` and then erasing one occurrence
of `v` sorts `l ++ [x]`: the net effect of one long-term-window step. -/
theorem sortedInsert_erase_head (x v : Nat) (l : List Nat) :
    (List.orderedInsert (· ≤ ·) x (List.insertionSort (· ≤ ·) (v :: l))).erase v =
      List.insertionSort (· ≤ ·) (l ++ [x]) := by
  have p1 : List.Perm
      (List.orderedInsert (· ≤ ·) x (List.insertionSort (· ≤ ·) (v :: l)))
      (x :: v :: l) :=
    (List.perm_orderedInsert _ x _).trans ((List.perm_insertionSort _ (v :: l)).cons x)
  have p3 : List.Perm ((x :: v :: l).erase v) (x :: l) := by
    by_cases hxv : x = v
    · subst hxv
      rw [List.erase_cons_head]
    · rw [List.erase_cons_tail (by simpa using hxv), List.erase_cons_head]
  exact @List.eq_of_perm_of_sorted Nat (· ≤ ·) inferInstance _ _
    ((p1.erase v).trans (p3.trans
      ((List.perm_append_singleton x l).symm.trans
        (List.perm_insertionSort _ (l ++ [x])).symm)))
    (List.Pairwise.sublist (List.erase_sublist _ _)
      ((List.sorted_insertionSort _ _).orderedInsert x _))
    (List.sorted_insertionSort _ _)

/-- One step of the short-term window: append the new weight, and drop
the head once the window exceeds 100 entries. -/
theorem short_step (c : Chain) (hgt : Nat) :
    (if SHORT_TERM_WINDOW <
        (winMap c.bw (hgt - SHORT_TERM_WINDOW) hgt ++ [c.bw hgt]).length then
      (winMap c.bw (hgt - SHORT_TERM_WINDOW) hgt ++ [c.bw hgt]).tail
    else winMap c.bw (hgt - SHORT_TERM_WINDOW) hgt ++ [c.bw hgt]) =
      winMap c.bw (hgt + 1 - SHORT_TERM_WINDOW) (hgt + 1) := by
  have hlen : (winMap c.bw (hgt - SHORT_TERM_WINDOW) hgt ++ [c.bw hgt]).length =
      hgt - (hgt - SHORT_TERM_WINDOW) + 1 := by
    simp [winMap]
  by_cases hS : hgt < SHORT_TERM_WINDOW
  · rw [if_neg (by rw [hlen]; simp only [SHORT_TERM_WINDOW] at *; omega)]
    rw [show hgt - SHORT_TERM_WINDOW = 0 from by omega,
      show hgt + 1 - SHORT_TERM_WINDOW = 0 from by
        simp only [SHORT_TERM_WINDOW] at *; omega,
      ← winMap_snoc c.bw 0 hgt (Nat.zero_le _)]
  · rw [if_pos (by rw [hlen]; simp only [SHORT_TERM_WINDOW] at *; omega)]
    rw [winMap_cons c.bw _ _ (by simp only [SHORT_TERM_WINDOW] at *; omega),
      List.cons_append, List.tail_cons,
      ← winMap_snoc c.bw _ hgt (by simp only [SHORT_TERM_WINDOW] at *; omega)]
    congr 1
    simp only [SHORT_TERM_WINDOW] at *
    omega

set_option maxRecDepth 4000 in
/-- One ingest step against a consistent chain store moves `stateAt c h`
to `stateAt c (h + 1)`. -/
theorem new_block_added_stateAt (c : Chain) (hgt : Nat) (hM : hgt < U64_MOD) :
    (stateAt c hgt).new_block_added hgt (c.bw hgt) (c.ltw hgt) c.db =
      .ok (stateAt c (hgt + 1)) := by
  have hMlit : U64_MOD = 18446744073709551616 := by norm_num [U64_MOD]
  have hM' : hgt < 18446744073709551616 := hMlit ▸ hM
  have e1 : (u64_sub_one hgt + 1) % U64_MOD = hgt := by
    simp only [u64_sub_one, hMlit]
    omega
  have e2 : u64_sub_one (hgt + 1) = hgt := by
    simp only [u64_sub_one, hMlit]
    omega
  unfold BlockWeightsCache.new_block_added stateAt
  dsimp only []
  rw [if_neg (show ¬((u64_sub_one hgt + 1) % U64_MOD ≠ hgt) from by
    rw [e1]; exact fun hne => hne rfl)]
  by_cases hev : LONG_TERM_WINDOW ≤ hgt
  · rw [if_pos hev]
    have hdb : c.db (.BlockWeights (hgt - LONG_TERM_WINDOW)) =
        .ok (.BlockWeights ⟨c.bw (hgt - LONG_TERM_WINDOW),
          c.ltw (hgt - LONG_TERM_WINDOW)⟩) := rfl
    simp only [hdb]
    have hwcons : winMap c.ltw (hgt - LONG_TERM_WINDOW) hgt =
        c.ltw (hgt - LONG_TERM_WINDOW) ::
          winMap c.ltw (hgt - LONG_TERM_WINDOW + 1) hgt :=
      winMap_cons _ _ _ (by simp only [LONG_TERM_WINDOW] at hev ⊢; omega)
    have hmem : c.ltw (hgt - LONG_TERM_WINDOW) ∈
        List.orderedInsert (· ≤ ·) (c.ltw hgt)
          (List.insertionSort (· ≤ ·) (winMap c.ltw (hgt - LONG_TERM_WINDOW) hgt)) := by
      rw [(List.perm_orderedInsert (· ≤ ·) (c.ltw hgt) _).mem_iff, List.mem_cons]
      right
      rw [(List.perm_insertionSort (· ≤ ·) _).mem_iff, hwcons]
      exact List.mem_cons_self _ _
    rw [if_pos hmem, hwcons, sortedInsert_erase_head,
      ← winMap_snoc c.ltw _ hgt (by simp only [LONG_TERM_WINDOW] at hev ⊢; omega)]
    dsimp only []
    rw [short_step, e1, e2,
      show hgt + 1 - LONG_TERM_WINDOW = hgt - LONG_TERM_WINDOW + 1 from by
        simp only [LONG_TERM_WINDOW] at hev ⊢; omega]
  · rw [if_neg hev]
    dsimp only []
    rw [show hgt - LONG_TERM_WINDOW = 0 from by
        simp only [LONG_TERM_WINDOW] at hev ⊢; omega,
      sortedInsert_append, ← winMap_snoc c.ltw 0 hgt (Nat.zero_le _)]
    rw [short_step, e1, e2,
      show hgt + 1 - LONG_TERM_WINDOW = 0 from by
        simp only [LONG_TERM_WINDOW] at hev ⊢; omega]

/-- One replay step: ingest block `i` of chain `c` (weights taken from
the chain) into the accumulated cache. -/
def replayStep (c : Chain) (acc : MutResult BlockWeightsCache) (i : Nat) :
    MutResult BlockWeightsCache :=
  match acc with
  | .ok s => s.new_block_added i (c.bw i) (c.ltw i) c.db
  | r => r

/-- Initialise the cache at height 0, then ingest every block
`0, 1, …, h - 1` in order via `new_block_added`. -/
def replayUpTo (c : Chain) (h : Nat) : MutResult BlockWeightsCache :=
  (List.range h).foldl (replayStep c) (.ok (stateAt c 0))


set_option maxRecDepth 100000 in
/-- Replaying the whole chain from an empty cache lands on `stateAt`. -/
theorem replayUpTo_eq_stateAt (c : Chain) (h : Nat) (hM : h < U64_MOD) :
    replayUpTo c h = .ok (stateAt c h) := by
  induction h with
  | zero => rfl
  | succ n ih =>
    have hn : n < U64_MOD := Nat.lt_of_succ_lt hM
    unfold replayUpTo at ih ⊢
    rw [List.range_succ, List.foldl_append, ih hn, List.foldl_cons, List.foldl_nil]
    show (stateAt c n).new_block_added n (c.bw n) (c.ltw n) c.db =
      .ok (stateAt c (n + 1))
    exact new_block_added_stateAt c n hn

/-- Claim C6: for every chain served by the (consistent) chain store and
every height `h`, initialising `BlockWeightsCache` at chain height `h`
yields the same state as initialising at height 0 (which succeeds and
produces `stateAt c 0`) and then ingesting every block up to height
`h - 1` via `new_block_added` — both equal `stateAt c h`. -/
theorem rebuild_equivalence (c : Chain) (h : Nat) (hM : h < U64_MOD) :
    BlockWeightsCache.init_from_chain_height 0 c.db = .ok (stateAt c 0) ∧
    replayUpTo c h = .ok (stateAt c h) ∧
    BlockWeightsCache.init_from_chain_height h c.db = .ok (stateAt c h) :=
  ⟨init_from_chain_height_eq_stateAt c 0, replayUpTo_eq_stateAt c h hM,
    init_from_chain_height_eq_stateAt c h⟩

/-- A small concrete chain for the C6 witness. -/
def chain3 : Chain := ⟨fun i => ⟨i + 1, i + 2⟩, fun _ => ⟨.V1, .V1⟩, 3⟩

/-- Witness for C6: the rebuild equivalence at height 3 of a concrete
chain. -/
theorem rebuild_equivalence_witness :
    (3 : Nat) < U64_MOD ∧
    (BlockWeightsCache.init_from_chain_height 0 chain3.db = .ok (stateAt chain3 0) ∧
      replayUpTo chain3 3 = .ok (stateAt chain3 3) ∧
      BlockWeightsCache.init_from_chain_height 3 chain3.db = .ok (stateAt chain3 3)) :=
  ⟨by decide, rebuild_equivalence chain3 3 (by decide)⟩
